import Mathlib

/-!
Shallow embedding of the AIvolution predator-prey simulation core
(`src/sim/cell.py`, `src/sim/animal.py`, `src/sim/prey.py`,
`src/sim/predator.py`, `src/sim/ecosystem.py`, `src/sim/simulation.py`).

Python objects are modelled as follows: a `Cell` lives at a coordinate of the
grid, so the Python back-reference `animal.position` (a `Cell` object or
`None`) becomes an `Option (Nat × Nat)`; two cells are identical exactly when
their coordinates agree.  Animal objects are stored in a heap of
`(id, Animal)` pairs, and a cell's occupant list holds ids.  Float arithmetic
is idealised with `ℚ`.  Python calls that raise (`AttributeError`,
`TypeError`, `KeyError`) are modelled with `Option`, `none` standing for the
raised exception.  `random.choice` is modelled by a stream of naturals that
selects an index.
-/

namespace AIvolution

inductive Terrain where
  | rock
  | soil
deriving DecidableEq, Repr

inductive Species where
  | prey
  | predator
deriving DecidableEq, Repr

/-- The four direction names of the `DIRECTIONS` dict in `animal.py`. -/
inductive Dir where
  | UP
  | DOWN
  | LEFT
  | RIGHT
deriving DecidableEq, Repr

/-- `DIRECTIONS = {"UP": (-1,0), "DOWN": (1,0), "LEFT": (0,-1), "RIGHT": (0,1)}`,
in dict insertion order (the order matters for first-match loops). -/
def DIRECTIONS : List (Dir × (Int × Int)) :=
  [(.UP, (-1, 0)), (.DOWN, (1, 0)), (.LEFT, (0, -1)), (.RIGHT, (0, 1))]

def dirVec (d : Dir) : Int × Int :=
  match d with
  | .UP => (-1, 0)
  | .DOWN => (1, 0)
  | .LEFT => (0, -1)
  | .RIGHT => (0, 1)

abbrev Coord := Nat × Nat

/-- The random stream: `random.choice(l)` consumes one element `n` and picks
index `n % l.length`. -/
abbrev Rng := List Nat

def randChoice (l : List Dir) (rng : Rng) : Dir × Rng :=
  match rng with
  | [] => (l.headD .UP, [])
  | n :: rest => (l.getD (n % l.length) .UP, rest)

/-- `Cell.__init__` fields: `terrain_type`, `grass_amount`, `occupants`
(occupants hold animal ids; the Python list holds object references). -/
structure Cell where
  terrain : Terrain
  grass : ℚ
  occupants : List Nat
deriving DecidableEq, Repr

/-- `Cell.is_fertile`. -/
def Cell.isFertile (c : Cell) : Prop := c.terrain = .soil

instance (c : Cell) : Decidable c.isFertile := by
  unfold Cell.isFertile; infer_instance

/-- `Cell.has_grass`. -/
def Cell.hasGrass (c : Cell) : Prop := c.terrain = .soil ∧ 0 < c.grass

instance (c : Cell) : Decidable c.hasGrass := by
  unfold Cell.hasGrass; infer_instance

/-- `Cell.consume_grass`: returns `(consumed, updated cell)`. -/
def Cell.consumeGrass (c : Cell) (amount : ℚ) : ℚ × Cell :=
  if ¬ c.terrain = .soil ∨ c.grass ≤ 0 then (0, c)
  else
    let consumed := min c.grass amount
    (consumed, { c with grass := c.grass - consumed })

/-- `Cell.regenerate_grass`. -/
def Cell.regenerateGrass (c : Cell) (amount : ℚ) : Cell :=
  if c.terrain = .soil then { c with grass := c.grass + amount } else c

/-- `Cell.can_add_animal`: fewer than two occupants. -/
def Cell.canAddAnimal (c : Cell) : Prop := c.occupants.length < 2

instance (c : Cell) : Decidable c.canAddAnimal := by
  unfold Cell.canAddAnimal; infer_instance

/-- `Cell.__init__`: rejects any label whose lowercase form is neither
`"rock"` nor `"soil"`; a rock cell starts with zero grass. -/
def cellInit (label : String) (initialGrass : ℚ) : Except String Cell :=
  let t := label.toLower
  if t = "rock" then .ok ⟨.rock, 0, []⟩
  else if t = "soil" then .ok ⟨.soil, initialGrass, []⟩
  else .error "Unsupported terrain_type"

/-- `Animal` attributes (`animal.py`) together with the subclass-specific
constants of `prey.py` / `predator.py`; a constant a species does not define
is set to 0 and never read for that species. -/
structure Animal where
  species : Species
  position : Option Coord
  alive : Bool
  energy : ℚ
  maxEnergy : ℚ
  moveCost : ℚ
  eatEfficiency : ℚ
  reproductionThreshold : ℚ
  reproductionCost : ℚ
  attackCost : ℚ
  attackDamage : ℚ
  eatAmount : ℚ
deriving DecidableEq, Repr

/-- `Prey.__init__` (base `Animal.__init__` defaults, then the prey
overrides `eat_amount = 15`, `max_energy = 80`, `reproduction_threshold = 60`). -/
def preyNew (pos : Option Coord) : Animal :=
  { species := .prey, position := pos, alive := true, energy := 50,
    maxEnergy := 80, moveCost := 2, eatEfficiency := 7/10,
    reproductionThreshold := 60, reproductionCost := 40,
    attackCost := 0, attackDamage := 0, eatAmount := 15 }

/-- `Predator.__init__` (base defaults, then `attack_cost = 5`,
`attack_damage = 25`, `max_energy = 120`, `reproduction_threshold = 90`). -/
def predatorNew (pos : Option Coord) : Animal :=
  { species := .predator, position := pos, alive := true, energy := 50,
    maxEnergy := 120, moveCost := 2, eatEfficiency := 7/10,
    reproductionThreshold := 90, reproductionCost := 40,
    attackCost := 5, attackDamage := 25, eatAmount := 0 }

/-- `self.__class__(position)` in `Animal.reproduce`. -/
def speciesNew (sp : Species) (pos : Option Coord) : Animal :=
  match sp with
  | .prey => preyNew pos
  | .predator => predatorNew pos

/-- The mutable object graph shared by `Ecosystem` and the animals: the grid
of cells and the heap of animal objects (`nextId` supplies fresh ids for
objects created by `reproduce`). -/
structure World where
  grid : List (List Cell)
  heap : List (Nat × Animal)
  nextId : Nat
deriving DecidableEq, Repr

def getCell (g : List (List Cell)) (p : Coord) : Option Cell :=
  (g[p.1]?).bind (fun row => row[p.2]?)

def setCell (g : List (List Cell)) (p : Coord) (c : Cell) : List (List Cell) :=
  match g[p.1]? with
  | some row => g.set p.1 (row.set p.2 c)
  | none => g

def getAnimal (w : World) (aid : Nat) : Option Animal :=
  w.heap.lookup aid

def updateAnimal (w : World) (aid : Nat) (f : Animal → Animal) : World :=
  { w with heap := w.heap.map (fun e => if e.1 = aid then (e.1, f e.2) else e) }

def setCellW (w : World) (p : Coord) (c : Cell) : World :=
  { w with grid := setCell w.grid p c }

/-- Number of grid rows (`len(grid)`). -/
def rowsOf (w : World) : Nat := w.grid.length

/-- Number of grid columns as the Python code computes it: `len(grid[0])`. -/
def colsOf (w : World) : Nat := (w.grid.headD []).length

/-- `Cell.add_animal`: append the id and set the two-way back-reference;
rejected when the cell already holds two occupants. -/
def addAnimalTo (w : World) (p : Coord) (aid : Nat) : World × Bool :=
  match getCell w.grid p with
  | none => (w, false)
  | some c =>
    if c.occupants.length < 2 then
      let w1 := setCellW w p { c with occupants := c.occupants ++ [aid] }
      (updateAnimal w1 aid (fun a => { a with position := some p }), true)
    else (w, false)

/-- `Cell.remove_animal`: if present, remove the first occurrence and clear
the animal's position reference; otherwise a no-op. -/
def removeAnimalFrom (w : World) (p : Coord) (aid : Nat) : World :=
  match getCell w.grid p with
  | none => w
  | some c =>
    if aid ∈ c.occupants then
      let w1 := setCellW w p { c with occupants := c.occupants.erase aid }
      updateAnimal w1 aid (fun a => { a with position := none })
    else w

/-- `Cell.clear_occupants`: clear every occupant's position, then empty the
list. -/
def clearOccupantsAt (w : World) (p : Coord) : World :=
  match getCell w.grid p with
  | none => w
  | some c =>
    let w1 := c.occupants.foldl
      (fun acc oid => updateAnimal acc oid (fun a => { a with position := none })) w
    setCellW w1 p { c with occupants := [] }

/-- The destination coordinate of a move: `(row, col) + DIRECTIONS[d]` when
that lands inside the bounds `len(grid)` × `len(grid[0])` used by the
source, `none` when out of bounds. -/
def destCoord (w : World) (p : Coord) (d : Dir) : Option Coord :=
  let v := dirVec d
  let nr : Int := (p.1 : Int) + v.1
  let nc : Int := (p.2 : Int) + v.2
  if 0 ≤ nr ∧ nr < (rowsOf w : Int) ∧ 0 ≤ nc ∧ nc < (colsOf w : Int) then
    some (nr.toNat, nc.toNat)
  else none

/-- `Animal.move`: the guard cascade of `animal.py` lines 120-159.  The
identity scan over `map_reference` locates the position cell exactly when its
coordinate is a valid grid index. -/
def move (w : World) (aid : Nat) (d : Dir) : World × Bool :=
  match getAnimal w aid with
  | none => (w, false)
  | some a =>
    if a.alive = false ∨ a.energy < a.moveCost then (w, false)
    else
      match a.position with
      | none => (w, false)
      | some p =>
        match getCell w.grid p with
        | none => (w, false)
        | some _ =>
          match destCoord w p d with
          | none => (w, false)
          | some q =>
            match getCell w.grid q with
            | none => (w, false)
            | some nbc =>
              if nbc.terrain = .rock ∨ ¬ nbc.occupants.length < 2 then (w, false)
              else
                let w1 := removeAnimalFrom w p aid
                let w2 := (addAnimalTo w1 q aid).1
                let w3 := updateAnimal w2 aid (fun x => { x with energy := x.energy - a.moveCost })
                (w3, true)

/-- `Animal.reproduce`: guard cascade, offspring of the same class with half
of the parent's pre-deduction energy, parent pays `reproduction_cost`, and
the offspring is admitted into the parent's cell. -/
def reproduce (w : World) (aid : Nat) : World × Bool :=
  match getAnimal w aid with
  | none => (w, false)
  | some a =>
    if a.alive = false ∨ a.energy < a.reproductionThreshold then (w, false)
    else
      match a.position with
      | none => (w, false)
      | some p =>
        match getCell w.grid p with
        | none => (w, false)
        | some c =>
          if ¬ c.occupants.length < 2 then (w, false)
          else
            let off := { speciesNew a.species (some p) with energy := a.energy / 2 }
            let oid := w.nextId
            let w1 : World :=
              { w with heap := w.heap ++ [(oid, off)], nextId := w.nextId + 1 }
            let w2 := updateAnimal w1 aid
              (fun x => { x with energy := x.energy - a.reproductionCost })
            addAnimalTo w2 p oid

/-- `Prey.eat`: consume up to `eat_amount` grass from the current cell and
convert it to energy, clamped to `max_energy`. -/
def preyEat (w : World) (aid : Nat) : World × ℚ :=
  match getAnimal w aid with
  | none => (w, 0)
  | some a =>
    match a.position with
    | none => (w, 0)
    | some p =>
      match getCell w.grid p with
      | none => (w, 0)
      | some c =>
        if ¬ c.hasGrass then (w, 0)
        else
          let r := c.consumeGrass a.eatAmount
          let gain := r.1 * a.eatEfficiency
          let w1 := setCellW w p r.2
          let w2 := updateAnimal w1 aid
            (fun x => { x with energy := min (x.energy + gain) x.maxEnergy })
          (w2, gain)

/-- `Predator.eat(prey)`.  The guard compares the two `position` references
(`None` equals `None`; two placed cells are identical exactly when the
coordinates agree).  When the prey dies the source dereferences
`self.position`; `none` models the `AttributeError` raised when that
reference is `None`. -/
def predatorEat (w : World) (pid qid : Nat) : Option (World × ℚ) :=
  match getAnimal w pid, getAnimal w qid with
  | some a, some q =>
    if a.alive = false ∨ q.alive = false ∨ a.position ≠ q.position then some (w, 0)
    else
      let e1 := a.energy - a.attackCost
      if e1 ≤ 0 then
        some (updateAnimal w pid (fun x => { x with energy := e1, alive := false }), 0)
      else
        let w1 := updateAnimal w pid (fun x => { x with energy := e1 })
        let q1 := q.energy - a.attackDamage
        let w2 := updateAnimal w1 qid (fun x => { x with energy := q1 })
        if q1 ≤ 0 then
          let w3 := updateAnimal w2 qid (fun x => { x with alive := false })
          match a.position with
          | none => none
          | some p =>
            let w4 := removeAnimalFrom w3 p qid
            let gain := q.maxEnergy * a.eatEfficiency
            let w5 := updateAnimal w4 pid
              (fun x => { x with energy := min (x.energy + gain) x.maxEnergy })
            some (w5, gain)
        else some (w2, 0)
  | _, _ => none

/-- One entry of the perception's `neighbors` dict in `Animal.see`: the
referenced cell's coordinate, its terrain, its grass (visible only when
fertile) and a snapshot of its occupant list. -/
structure NeighborInfo where
  cellPos : Coord
  terrain : Terrain
  grass : ℚ
  occupants : List Nat
deriving DecidableEq, Repr

/-- The perception dict built by `Animal.see` for a living, placed agent. -/
structure Perception where
  currentCell : Coord
  neighbors : List ((Int × Int) × NeighborInfo)
  selfEnergy : ℚ
deriving DecidableEq, Repr

/-- One candidate entry of the neighbors dict, present when the offset lands
inside the grid bounds used by the source (`len(grid)` / `len(grid[0])`). -/
def neighborEntry (w : World) (p : Coord) (dr dc : Int) :
    List ((Int × Int) × NeighborInfo) :=
  let nr : Int := (p.1 : Int) + dr
  let nc : Int := (p.2 : Int) + dc
  if 0 ≤ nr ∧ nr < (rowsOf w : Int) ∧ 0 ≤ nc ∧ nc < (colsOf w : Int) then
    match getCell w.grid (nr.toNat, nc.toNat) with
    | some cell =>
      [((dr, dc),
        ⟨(nr.toNat, nc.toNat), cell.terrain,
         if cell.terrain = .soil then cell.grass else 0, cell.occupants⟩)]
    | none => []
  else []

/-- The nine `(dr, dc)` offsets in the iteration order of `Animal.see`. -/
def seeOffsets : List (Int × Int) :=
  [(-1, -1), (-1, 0), (-1, 1), (0, -1), (0, 0), (0, 1), (1, -1), (1, 0), (1, 1)]

/-- `Animal.see`: `none` is the empty perception dict returned for a dead or
unplaced agent, or when the position cell is not found in the grid. -/
def see (w : World) (aid : Nat) : Option Perception :=
  match getAnimal w aid with
  | none => none
  | some a =>
    match a.position with
    | none => none
    | some p =>
      if a.alive = false then none
      else
        match getCell w.grid p with
        | none => none
        | some _ =>
          some ⟨p, (seeOffsets.map (fun v => neighborEntry w p v.1 v.2)).flatten,
                a.energy⟩

/-- The action tuple returned by `action`: `(MOVE, (dir,))`, `(EAT, ())`,
`(EAT, (prey,))`, `(REPRODUCE, ())`. -/
inductive Act where
  | move (d : Dir)
  | eat (target : Option Nat)
  | reproduce
deriving DecidableEq, Repr

/-- `occupant.alive` on an object reference. -/
def aliveB (w : World) (oid : Nat) : Bool :=
  match getAnimal w oid with
  | some a => a.alive
  | none => false

/-- `isinstance(occupant, <species class>)`. -/
def speciesIsB (w : World) (oid : Nat) (sp : Species) : Bool :=
  match getAnimal w oid with
  | some a => a.species = sp
  | none => false

/-- `neighbor["cell"].can_add_animal()`: the live capacity query on the cell
referenced from a perception entry. -/
def canAddB (w : World) (p : Coord) : Bool :=
  match getCell w.grid p with
  | some c => c.occupants.length < 2
  | none => false

/-- The safe directions a fleeing prey collects: an axis offset present in
the perception whose terrain snapshot is soil and whose cell has capacity. -/
def safeDirs (w : World) (per : Perception) : List Dir :=
  (DIRECTIONS.filter (fun dv =>
    match per.neighbors.lookup dv.2 with
    | some nb => decide (nb.terrain = .soil) && canAddB w nb.cellPos
    | none => false)).map (fun dv => dv.1)

/-- The occupant loop of `Prey.action`'s threat check: the first living
occupant triggers the escape attempt; an empty `safe_dirs` falls through to
the next occupant. -/
def escapeScan (w : World) (per : Perception) (occs : List Nat) (rng : Rng) :
    Option (Act × Rng) :=
  match occs with
  | [] => none
  | oid :: rest =>
    if aliveB w oid then
      let sd := safeDirs w per
      if sd = [] then escapeScan w per rest rng
      else
        let r := randChoice sd rng
        some (.move r.1, r.2)
    else escapeScan w per rest rng

/-- Directions toward neighbors whose grass snapshot exceeds `0.5` with soil
terrain and live capacity (`grass_dirs` of `Prey.action`); kept as raw
offsets, matched against `DIRECTIONS` afterwards as in the source. -/
def preyGrassDirs (w : World) (per : Perception) : List (Int × Int) :=
  (per.neighbors.filter (fun e =>
    decide (e.2.terrain = .soil) && decide ((1 : ℚ)/2 < e.2.grass)
      && canAddB w e.2.cellPos)).map (fun e => e.1)

/-- Tail of `Prey.action`: move toward grass (first `DIRECTIONS` entry whose
vector is a grass direction), else a uniformly random direction. -/
def preyActionTail (w : World) (per : Perception) (rng : Rng) : Act × Rng :=
  let gd := preyGrassDirs w per
  match DIRECTIONS.find? (fun dv => decide (dv.2 ∈ gd)) with
  | some dv => (.move dv.1, rng)
  | none =>
    let r := randChoice (DIRECTIONS.map (fun dv => dv.1)) rng
    (.move r.1, r.2)

/-- `Prey.action`.  `none` models the `AttributeError` raised when the
reproduce branch dereferences a `None` position. -/
def preyAction (w : World) (a : Animal) (per : Perception) (rng : Rng) :
    Option (Act × Rng) :=
  let esc :=
    match getCell w.grid per.currentCell with
    | some c => escapeScan w per c.occupants rng
    | none => none
  match esc with
  | some r => some r
  | none =>
    match getCell w.grid per.currentCell with
    | some c =>
      if a.energy < a.maxEnergy * (7/10) ∧ c.hasGrass then some (.eat none, rng)
      else
        if a.reproductionThreshold ≤ a.energy then
          match a.position with
          | none => none
          | some p =>
            if canAddB w p then some (.reproduce, rng)
            else some (preyActionTail w per rng)
        else some (preyActionTail w per rng)
    | none => some (preyActionTail w per rng)

/-- The current-cell loop of `Predator.action`: the first living prey among
the live occupant list becomes the attack target. -/
def huntScan (w : World) (occs : List Nat) : Option Nat :=
  match occs with
  | [] => none
  | oid :: rest =>
    if speciesIsB w oid .prey && aliveB w oid then some oid
    else huntScan w rest

/-- First `DIRECTIONS` entry whose vector equals `v`. -/
def dirOfVec (v : Int × Int) : Option Dir :=
  (DIRECTIONS.find? (fun dv => dv.2 = v)).map (fun dv => dv.1)

/-- `prey_dirs` of `Predator.action`: neighbors (snapshot occupants, no
liveness check) containing a prey, converted to axis direction names. -/
def predPreyDirs (w : World) (per : Perception) : List Dir :=
  per.neighbors.filterMap (fun e =>
    if e.2.occupants.any (fun oid => speciesIsB w oid .prey) then dirOfVec e.1
    else none)

/-- The low-energy scan of `Predator.action`: first neighbor entry holding a
living prey whose offset matches an axis direction. -/
def lowEnergyScan (w : World) (entries : List ((Int × Int) × NeighborInfo)) :
    Option Dir :=
  match entries with
  | [] => none
  | e :: rest =>
    if e.2.occupants.any (fun oid => speciesIsB w oid .prey && aliveB w oid) then
      match dirOfVec e.1 with
      | some d => some d
      | none => lowEnergyScan w rest
    else lowEnergyScan w rest

/-- `Predator.action`.  `none` models the `AttributeError` of the reproduce
branch on a `None` position. -/
def predatorAction (w : World) (a : Animal) (per : Perception) (rng : Rng) :
    Option (Act × Rng) :=
  let hunt :=
    match getCell w.grid per.currentCell with
    | some c => huntScan w c.occupants
    | none => none
  match hunt with
  | some target => some (.eat (some target), rng)
  | none =>
    let pd := predPreyDirs w per
    if pd = [] then
      let low :=
        if a.energy < a.maxEnergy * (6/10) then lowEnergyScan w per.neighbors
        else none
      match low with
      | some d => some (.move d, rng)
      | none =>
        if a.reproductionThreshold ≤ a.energy then
          match a.position with
          | none => none
          | some p =>
            if canAddB w p then some (.reproduce, rng)
            else
              let r := randChoice (DIRECTIONS.map (fun dv => dv.1)) rng
              some (.move r.1, r.2)
        else
          let r := randChoice (DIRECTIONS.map (fun dv => dv.1)) rng
          some (.move r.1, r.2)
    else
      let r := randChoice pd rng
      some (.move r.1, r.2)

/-- Phase 1 of `Simulation.next_step`: perceptions and decisions for every
living animal, in population order, against the un-mutated world.  `none`
models the exceptions an action raises on an empty perception. -/
def collectActions (w : World) (pop : List Nat) (rng : Rng) :
    Option (List (Nat × Act) × Rng) :=
  match pop with
  | [] => some ([], rng)
  | aid :: rest =>
    match getAnimal w aid with
    | none => collectActions w rest rng
    | some a =>
      if a.alive then
        match see w aid with
        | none => none
        | some per =>
          let res :=
            match a.species with
            | .prey => preyAction w a per rng
            | .predator => predatorAction w a per rng
          match res with
          | none => none
          | some (act, rng') =>
            match collectActions w rest rng' with
            | none => none
            | some (acts, rng'') => some ((aid, act) :: acts, rng'')
      else collectActions w rest rng

/-- `Ecosystem.transform`: dispatch one action; returns the updated world,
the animal's `alive` flag, and the offspring list.  `none` models the
`TypeError` of calling `Predator.eat` without a target and the impossible
dereferences of the reproduce bookkeeping. -/
def transform (w : World) (aid : Nat) (act : Act) :
    Option (World × Bool × List Nat) :=
  match act with
  | .move d =>
    let r := move w aid d
    some (r.1, aliveB r.1 aid, [])
  | .eat targ =>
    match getAnimal w aid with
    | none => none
    | some a =>
      match targ with
      | some t =>
        if a.species = .predator ∧ speciesIsB w t .prey then
          match predatorEat w aid t with
          | some r => some (r.1, aliveB r.1 aid, [])
          | none => none
        else
          match a.species with
          | .prey =>
            let r := preyEat w aid
            some (r.1, aliveB r.1 aid, [])
          | .predator => none
      | none =>
        match a.species with
        | .prey =>
          let r := preyEat w aid
          some (r.1, aliveB r.1 aid, [])
        | .predator => none
  | .reproduce =>
    let r := reproduce w aid
    if r.2 then
      match getAnimal r.1 aid with
      | none => none
      | some a' =>
        match a'.position with
        | none => none
        | some p =>
          match getCell r.1.grid p with
          | some c => some (r.1, aliveB r.1 aid, [c.occupants.getLastD 0])
          | none => none
    else some (r.1, aliveB r.1 aid, [])

/-- One resolution loop of phase 2/3 of `Simulation.next_step`: execute the
recorded actions of one species, skipping animals that are no longer alive,
accumulating the dead and the offspring. -/
def execPhase (sp : Species) (acts : List (Nat × Act)) (w : World)
    (dead new_ : List Nat) : Option (World × List Nat × List Nat) :=
  match acts with
  | [] => some (w, dead, new_)
  | (aid, act) :: rest =>
    if speciesIsB w aid sp && aliveB w aid then
      match transform w aid act with
      | none => none
      | some (w', alive, off) =>
        execPhase sp rest w' (if alive then dead else dead ++ [aid]) (new_ ++ off)
    else execPhase sp rest w dead new_

/-- `Ecosystem.regenerate_grass`: add the regrowth rate to every soil cell. -/
def regenAll (w : World) (rate : ℚ) : World :=
  { w with grid := w.grid.map (fun row => row.map (fun c =>
      if c.terrain = .soil then c.regenerateGrass rate else c)) }

/-- `Simulation` state: the shared world, the ordered population list, and
the step bookkeeping. -/
structure SimState where
  world : World
  pop : List Nat
  grassRegrowthRate : ℚ
  maxSteps : Nat
  currentStep : Nat
deriving DecidableEq, Repr

/-- `Simulation.next_step`: returns `false` without running when
`current_step >= max_steps`; otherwise decisions are collected against the
pre-tick snapshot, predator actions are applied before prey actions, the
population is rebuilt, grass regenerates, and the step counter increments. -/
def nextStep (s : SimState) (rng : Rng) : Option (SimState × Bool × Rng) :=
  if s.maxSteps ≤ s.currentStep then some (s, false, rng)
  else
    match collectActions s.world s.pop rng with
    | none => none
    | some (acts, rng1) =>
      match execPhase .predator acts s.world [] [] with
      | none => none
      | some (w2, dead2, new2) =>
        match execPhase .prey acts w2 dead2 new2 with
        | none => none
        | some (w3, dead3, new3) =>
          let pop' := (s.pop.filter (fun i => aliveB w3 i && decide (i ∉ dead3))) ++ new3
          let w4 := regenAll w3 s.grassRegrowthRate
          let s' : SimState :=
            { s with
              world := w4
              pop := pop'
              currentStep := s.currentStep + 1 }
          some (s', true, rng1)

/-- The loop body of `Simulation.run`: up to `n` calls of `next_step`,
breaking as soon as it reports `False`. -/
def runLoop : Nat → SimState → Rng → Option (SimState × Rng)
  | 0, s, rng => some (s, rng)
  | n + 1, s, rng =>
    match nextStep s rng with
    | none => none
    | some (s', true, rng') => runLoop n s' rng'
    | some (s', false, rng') => some (s', rng')

/-- `Simulation.run(steps)`: `steps = steps or self.max_steps` — both `None`
and `0` fall back to `max_steps` because `0` is falsy. -/
def runPy (steps : Option Nat) (s : SimState) (rng : Rng) :
    Option (SimState × Rng) :=
  let eff := match steps with
    | none => s.maxSteps
    | some n => if n = 0 then s.maxSteps else n
  runLoop eff s rng

/-- Result of `Ecosystem.__init__`: the grid together with the stored size
and regrowth rate. -/
structure EcoInit where
  size : Int
  grassRegrowthRate : ℚ
  map : List (List Cell)
deriving DecidableEq, Repr

/-- One draw from the random stream of floats used by
`Ecosystem.__init__` (`random.random()` / `random.uniform(0.5, 1.0)`). -/
def drawQ (rng : List ℚ) : ℚ × List ℚ :=
  match rng with
  | [] => (0, [])
  | x :: rest => (x, rest)

/-- Build one row of the grid: each cell is rock with probability
`rock_density` (one draw), otherwise soil with a uniform initial grass
amount (a second draw). -/
def ecosystemRow (density : ℚ) : Nat → List ℚ → Except String (List Cell × List ℚ)
  | 0, rng => .ok ([], rng)
  | n + 1, rng =>
    let d := drawQ rng
    if d.1 < density then
      match cellInit "rock" 1 with
      | .error e => .error e
      | .ok c =>
        match ecosystemRow density n d.2 with
        | .error e => .error e
        | .ok (row, rng') => .ok (c :: row, rng')
    else
      let g := drawQ d.2
      match cellInit "soil" g.1 with
      | .error e => .error e
      | .ok c =>
        match ecosystemRow density n g.2 with
        | .error e => .error e
        | .ok (row, rng') => .ok (c :: row, rng')

def ecosystemRows (density : ℚ) (cols : Nat) :
    Nat → List ℚ → Except String (List (List Cell) × List ℚ)
  | 0, rng => .ok ([], rng)
  | n + 1, rng =>
    match ecosystemRow density cols rng with
    | .error e => .error e
    | .ok (row, rng') =>
      match ecosystemRows density cols n rng' with
      | .error e => .error e
      | .ok (rows, rng'') => .ok (row :: rows, rng'')

/-- `Ecosystem.__init__(size, grass_regrowth_rate, rock_density)`: the two
`range(size)` loops run zero times when `size <= 0`, so a non-positive size
yields an empty grid with no error. -/
def ecosystemInit (size : Int) (rate density : ℚ) (rng : List ℚ) :
    Except String EcoInit :=
  match ecosystemRows density size.toNat size.toNat rng with
  | .error e => .error e
  | .ok (rows, _) => .ok ⟨size, rate, rows⟩

/-- The core mutating operations named by the invariant claims. -/
inductive Op where
  | addOp (p : Coord) (aid : Nat)
  | removeOp (p : Coord) (aid : Nat)
  | clearOp (p : Coord)
  | moveOp (aid : Nat) (d : Dir)
  | preyEatOp (aid : Nat)
  | predEatOp (pid qid : Nat)
  | reproduceOp (aid : Nat)
  | consumeOp (p : Coord) (amount : ℚ)
  | regenOp (rate : ℚ)
  | tickOp (rng : Rng)

/-- `Cell.consume_grass` as a world operation (resolving the cell by its
coordinate). -/
def consumeAt (w : World) (p : Coord) (amount : ℚ) : World :=
  match getCell w.grid p with
  | none => w
  | some c => setCellW w p (c.consumeGrass amount).2

/-- Apply one core operation; `none` propagates a raised exception. -/
def applyOp (s : SimState) (op : Op) : Option SimState :=
  match op with
  | .addOp p aid => some { s with world := (addAnimalTo s.world p aid).1 }
  | .removeOp p aid => some { s with world := removeAnimalFrom s.world p aid }
  | .clearOp p => some { s with world := clearOccupantsAt s.world p }
  | .moveOp aid d => some { s with world := (move s.world aid d).1 }
  | .preyEatOp aid => some { s with world := (preyEat s.world aid).1 }
  | .predEatOp pid qid =>
    match predatorEat s.world pid qid with
    | some r => some { s with world := r.1 }
    | none => none
  | .reproduceOp aid => some { s with world := (reproduce s.world aid).1 }
  | .consumeOp p amount => some { s with world := consumeAt s.world p amount }
  | .regenOp rate => some { s with world := regenAll s.world rate }
  | .tickOp rng =>
    match nextStep s rng with
    | some r => some r.1
    | none => none

def applyOps (s : SimState) (ops : List Op) : Option SimState :=
  match ops with
  | [] => some s
  | op :: rest =>
    match applyOp s op with
    | some s' => applyOps s' rest
    | none => none

/-- The occupancy-bound invariant: every cell of the grid holds at most two
occupants. -/
def OccInv (g : List (List Cell)) : Prop :=
  ∀ row ∈ g, ∀ c ∈ row, c.occupants.length ≤ 2

instance (g : List (List Cell)) : Decidable (OccInv g) := by
  unfold OccInv; infer_instance

/-! ### Concrete fixture states used by the evaluation theorems -/

/-- A predator whose energy does not survive its own attack cost. -/
def c1pred : Animal := { predatorNew (some (0, 0)) with energy := 5 }

def c1prey : Animal := preyNew (some (0, 0))

/-- A 1×1 soil world holding the low-energy predator and a prey, both alive
and placed at `(0,0)`. -/
def c1sim : SimState where
  world := { grid := [[⟨.soil, 1, [0, 1]⟩]], heap := [(0, c1pred), (1, c1prey)], nextId := 2 }
  pop := [0, 1]
  grassRegrowthRate := 0
  maxSteps := 5
  currentStep := 0

/-- A prey whose energy equals exactly one move cost. -/
def c2prey : Animal := { preyNew (some (0, 0)) with energy := 2 }

/-- A 1×2 soil world (no grass) holding only that prey at `(0,0)`. -/
def c2sim : SimState where
  world := { grid := [[⟨.soil, 0, [0]⟩, ⟨.soil, 0, []⟩]], heap := [(0, c2prey)], nextId := 1 }
  pop := [0]
  grassRegrowthRate := 0
  maxSteps := 5
  currentStep := 0

/-- A living, unplaced predator and a living, unplaced prey (fresh
`Predator()` / `Prey()` objects before placement). -/
def c3wA : World where
  grid := []
  heap := [(0, predatorNew none), (1, preyNew none)]
  nextId := 2

/-- Same, but the prey's energy (20) does not survive one attack. -/
def c3wB : World where
  grid := []
  heap := [(0, predatorNew none), (1, { preyNew none with energy := 20 })]
  nextId := 2

/-- An animal-free simulation with `max_steps = 1` that has not run yet. -/
def c6sim : SimState where
  world := { grid := [[⟨.soil, 1, []⟩]], heap := [], nextId := 0 }
  pop := []
  grassRegrowthRate := 1/10
  maxSteps := 1
  currentStep := 0

/-- A halted simulation (`current_step = max_steps`). -/
def c6halted : SimState where
  world := { grid := [[⟨.soil, 1, []⟩]], heap := [], nextId := 0 }
  pop := []
  grassRegrowthRate := 1/10
  maxSteps := 2
  currentStep := 2

/-- A rock cell, as `Cell("rock")` constructs it. -/
def rockCell : Cell := ⟨.rock, 0, []⟩

/-- A fertile cell with one unit of grass. -/
def c8cell : Cell := ⟨.soil, 1, []⟩

/-- A prey placed at the left cell of a 1×2 soil grid. -/
def mvA : Animal := preyNew (some (0, 0))

def mvW : World where
  grid := [[⟨.soil, 0, [0]⟩, ⟨.soil, 0, []⟩]]
  heap := [(0, mvA)]
  nextId := 1

/-- A prey with reproduction-level energy alone in a 1×1 soil world. -/
def rpA : Animal := { preyNew (some (0, 0)) with energy := 70 }

def rpW : World where
  grid := [[⟨.soil, 0, [0]⟩]]
  heap := [(0, rpA)]
  nextId := 1

/-- A tiny world for exercising the occupancy invariant: one soil cell, one
unplaced prey object, a halted scheduler. -/
def c9sim : SimState where
  world := { grid := [[⟨.soil, 0, []⟩]], heap := [(0, preyNew none)], nextId := 1 }
  pop := []
  grassRegrowthRate := 0
  maxSteps := 0
  currentStep := 0

/-- `c9sim` after placing animal 0 at `(0,0)` and one (halted) tick. -/
def c9end : SimState where
  world := { grid := [[⟨.soil, 0, [0]⟩]], heap := [(0, preyNew (some (0, 0)))], nextId := 1 }
  pop := []
  grassRegrowthRate := 0
  maxSteps := 0
  currentStep := 0

/-- A world whose only cell already holds two occupants. -/
def c9fullW : World where
  grid := [[⟨.soil, 0, [1, 2]⟩]]
  heap := []
  nextId := 0

/-- The perception `see` builds for the prey of `mvW` at `(0,0)`. -/
def c10per : Perception where
  currentCell := (0, 0)
  neighbors := [((0, 0), ⟨(0, 0), .soil, 0, [0]⟩), ((0, 1), ⟨(0, 1), .soil, 0, []⟩)]
  selfEnergy := 50

/-! ### Helper lemmas about the heap and grid primitives -/

theorem lookup_map_update (heap : List (Nat × Animal)) (aid : Nat)
    (f : Animal → Animal) :
    (heap.map (fun e => if e.1 = aid then (e.1, f e.2) else e)).lookup aid
      = (heap.lookup aid).map f := by
  induction heap with
  | nil => rfl
  | cons e rest ih =>
    obtain ⟨k, v⟩ := e
    by_cases h : k = aid
    · subst h
      rw [List.map_cons, if_pos rfl]
      simp [List.lookup, ih]
    · have hb : (aid == k) = false := by
        simp [beq_eq_false_iff_ne]
        exact fun hh => h hh.symm
      rw [List.map_cons, if_neg h]
      simp [List.lookup, hb, ih]

theorem lookup_map_update_ne (heap : List (Nat × Animal)) (aid bid : Nat)
    (f : Animal → Animal) (h : bid ≠ aid) :
    (heap.map (fun e => if e.1 = aid then (e.1, f e.2) else e)).lookup bid
      = heap.lookup bid := by
  induction heap with
  | nil => rfl
  | cons e rest ih =>
    obtain ⟨k, v⟩ := e
    by_cases he : k = aid
    · subst he
      have hb : (bid == k) = false := by simpa [beq_eq_false_iff_ne] using h
      rw [List.map_cons, if_pos rfl]
      simp [List.lookup, hb, ih]
    · rw [List.map_cons, if_neg he]
      by_cases hb : bid = k
      · subst hb
        simp [List.lookup]
      · have hb2 : (bid == k) = false := by simpa [beq_eq_false_iff_ne] using hb
        simp [List.lookup, hb2, ih]

theorem getAnimal_updateAnimal (w : World) (aid : Nat) (f : Animal → Animal) :
    getAnimal (updateAnimal w aid f) aid = (getAnimal w aid).map f :=
  lookup_map_update w.heap aid f

theorem getAnimal_updateAnimal_ne (w : World) (aid bid : Nat)
    (f : Animal → Animal) (h : bid ≠ aid) :
    getAnimal (updateAnimal w aid f) bid = getAnimal w bid :=
  lookup_map_update_ne w.heap aid bid f h

theorem updateAnimal_grid (w : World) (aid : Nat) (f : Animal → Animal) :
    (updateAnimal w aid f).grid = w.grid := rfl

theorem getCell_setCell_self (g : List (List Cell)) (p : Coord) (c c0 : Cell)
    (h : getCell g p = some c0) : getCell (setCell g p c) p = some c := by
  unfold getCell at h ⊢
  unfold setCell
  cases hrow : g[p.1]? with
  | none => rw [hrow] at h; simp at h
  | some row =>
    rw [hrow] at h
    simp only [Option.some_bind] at h
    have h1 : p.1 < g.length := by
      by_contra hc
      rw [List.getElem?_eq_none (Nat.le_of_not_lt hc)] at hrow
      exact Option.noConfusion hrow
    have h2 : p.2 < row.length := by
      by_contra hc
      rw [List.getElem?_eq_none (Nat.le_of_not_lt hc)] at h
      exact Option.noConfusion h
    rw [List.getElem?_set_self h1]
    simp [List.getElem?_set_self h2]

theorem getCell_setCell_ne (g : List (List Cell)) (p q : Coord) (c : Cell)
    (h : q ≠ p) : getCell (setCell g p c) q = getCell g q := by
  unfold getCell setCell
  cases hrow : g[p.1]? with
  | none => rfl
  | some row =>
    by_cases h1 : q.1 = p.1
    · have h2 : q.2 ≠ p.2 := by
        intro h2
        exact h (Prod.ext h1 h2)
      rw [h1, List.getElem?_set_self (by
        by_contra hc
        rw [List.getElem?_eq_none (Nat.le_of_not_lt hc)] at hrow
        exact Option.noConfusion hrow), hrow]
      simp only [Option.some_bind]
      exact List.getElem?_set_ne (Ne.symm h2)
    · rw [List.getElem?_set_ne (Ne.symm h1)]

theorem setCellW_heap (w : World) (p : Coord) (c : Cell) :
    (setCellW w p c).heap = w.heap := rfl

theorem setCellW_grid (w : World) (p : Coord) (c : Cell) :
    (setCellW w p c).grid = setCell w.grid p c := rfl

theorem getAnimal_setCellW (w : World) (p : Coord) (c : Cell) (aid : Nat) :
    getAnimal (setCellW w p c) aid = getAnimal w aid := rfl

/-! ### Claim theorems -/

/-- Claim C1.  The claimed invariant fails on the code: in `c1sim` the
predator (id 0, energy 5) attacks the co-located prey, pays `attack_cost`,
reaches energy 0 and is marked dead inside `Predator.eat`, but that branch
never calls `remove_animal` and `Simulation.next_step` never detaches dead
animals either — so at the end of the tick the dead predator is still a
member of cell `(0,0)`'s occupant list and its position still references
that cell (it is only dropped from the population list). -/
theorem predator_dead_of_attack_cost_keeps_membership :
    ((nextStep c1sim []).map (fun r => r.2.1) = some true) ∧
    (((nextStep c1sim []).bind (fun r => getAnimal r.1.world 0)).map Animal.alive
      = some false) ∧
    (((nextStep c1sim []).bind (fun r => getAnimal r.1.world 0)).map Animal.energy
      = some 0) ∧
    (((nextStep c1sim []).bind (fun r => getAnimal r.1.world 0)).map Animal.position
      = some (some (0, 0))) ∧
    (((nextStep c1sim []).bind (fun r => getCell r.1.world.grid (0, 0))).map
        Cell.occupants = some [0, 1]) ∧
    ((nextStep c1sim []).map (fun r => r.1.pop) = some [1]) := by
  with_unfolding_all decide

/-- Claim C2.  Death detachment fails on the code: in `c2sim` the prey
(energy 2) makes a successful move costing exactly 2, so its energy reaches
0 during the tick, yet at the end of the tick it is still alive and still a
member of its destination cell `(0,1)`; in the following tick it acts again
(its escape move fails for lack of energy) and is still alive afterwards. -/
theorem prey_zero_energy_not_detached_and_acts_again :
    (((nextStep c2sim []).bind (fun r => getAnimal r.1.world 0)).map Animal.alive
      = some true) ∧
    (((nextStep c2sim []).bind (fun r => getAnimal r.1.world 0)).map Animal.energy
      = some 0) ∧
    (((nextStep c2sim []).bind (fun r => getAnimal r.1.world 0)).map Animal.position
      = some (some (0, 1))) ∧
    (((nextStep c2sim []).bind (fun r => getCell r.1.world.grid (0, 1))).map
        Cell.occupants = some [0]) ∧
    ((((nextStep c2sim []).bind (fun r => nextStep r.1 r.2.2)).map
        (fun r => r.1.currentStep)) = some 2) ∧
    ((((nextStep c2sim []).bind (fun r => nextStep r.1 r.2.2)).bind
        (fun r => getAnimal r.1.world 0)).map Animal.alive = some true) := by
  with_unfolding_all decide

/-- Claim C3.  The no-op guard of `Predator.eat` compares position
references, so two living *unplaced* animals (`None == None`) pass it even
though they share no cell: in `c3wA` the call returns 0 yet deducts
`attack_cost` from the predator (50 → 45) and `attack_damage` from the prey
(50 → 25); in `c3wB` (prey energy 20) the prey's death branch dereferences
the predator's `None` position and the call raises instead of returning. -/
theorem predator_eat_unplaced_pair_misbehaves :
    ((predatorEat c3wA 0 1).map (fun r =>
        (r.2, (getAnimal r.1 0).map Animal.energy,
         (getAnimal r.1 1).map Animal.energy))
      = some (0, some 45, some 25))
    ∧ predatorEat c3wB 0 1 = none := by with_unfolding_all decide

/-- Claim C8, counterexample: for the negative requested amount `-1` on a
rock cell the call returns `0` and changes nothing, but
`min(amount, prior resource) = -1 ≠ 0`, so the unrestricted claim is
false — while the rock no-op behavior itself holds even at `-1`. -/
theorem consume_grass_negative_request_not_min :
    (rockCell.consumeGrass (-1)).1 = 0 ∧
    min (-1 : ℚ) rockCell.grass = -1 ∧
    rockCell.consumeGrass (-1) = (0, rockCell) := by
  decide

/-- Claim C8 (amended: the `min` equation for *nonnegative* requested
amounts).  On any cell satisfying the constructor's invariants
(nonnegative resource, zero on rock): for a nonnegative requested amount
`consume_grass` returns `min(amount, prior)`; for *any* requested amount it
leaves the resource at prior minus the return value and touches nothing
else, and on rock or on an empty cell it returns `0` with no change. -/
theorem consume_grass_contract (c : Cell) (amount : ℚ)
    (hg : 0 ≤ c.grass) (hrock : c.terrain = .rock → c.grass = 0) :
    (0 ≤ amount → (c.consumeGrass amount).1 = min amount c.grass) ∧
    (c.consumeGrass amount).2.grass = c.grass - (c.consumeGrass amount).1 ∧
    (c.consumeGrass amount).2.terrain = c.terrain ∧
    (c.consumeGrass amount).2.occupants = c.occupants ∧
    ((c.terrain = .rock ∨ c.grass ≤ 0) → c.consumeGrass amount = (0, c)) := by
  unfold Cell.consumeGrass
  by_cases hguard : ¬ c.terrain = .soil ∨ c.grass ≤ 0
  · have hzero : c.grass = 0 := by
      rcases hguard with hs | hle
      · cases ht : c.terrain with
        | rock => exact hrock ht
        | soil => exact absurd ht hs
      · exact le_antisymm hle hg
    rw [if_pos hguard]
    refine ⟨?_, by simp, rfl, rfl, fun _ => rfl⟩
    intro ha
    rw [hzero]
    exact (min_eq_right ha).symm
  · rw [if_neg hguard]
    push_neg at hguard
    obtain ⟨hsoil, hpos⟩ := hguard
    refine ⟨fun _ => min_comm c.grass amount, rfl, rfl, rfl, ?_⟩
    rintro (hr | hle)
    · rw [hsoil] at hr; exact Terrain.noConfusion hr
    · exact absurd hpos (not_lt.mpr hle)

theorem consume_grass_contract_witness :
    (c8cell.consumeGrass 15).1 = min (15 : ℚ) c8cell.grass ∧
    (c8cell.consumeGrass 15).2.grass = c8cell.grass - (c8cell.consumeGrass 15).1 ∧
    (c8cell.consumeGrass 15).2.terrain = c8cell.terrain ∧
    (c8cell.consumeGrass 15).2.occupants = c8cell.occupants ∧
    ((c8cell.terrain = .rock ∨ c8cell.grass ≤ 0) → c8cell.consumeGrass 15 = (0, c8cell)) ∧
    rockCell.consumeGrass (-3) = (0, rockCell) :=
  ⟨(consume_grass_contract c8cell 15 (by norm_num [c8cell]) (by decide)).1 (by norm_num),
   (consume_grass_contract c8cell 15 (by norm_num [c8cell]) (by decide)).2.1,
   (consume_grass_contract c8cell 15 (by norm_num [c8cell]) (by decide)).2.2.1,
   (consume_grass_contract c8cell 15 (by norm_num [c8cell]) (by decide)).2.2.2.1,
   (consume_grass_contract c8cell 15 (by norm_num [c8cell]) (by decide)).2.2.2.2,
   (consume_grass_contract rockCell (-3) (by decide) (by decide)).2.2.2.2
     (Or.inl rfl)⟩

/-- Claim C7, counterexample: `Ecosystem(0)` and `Ecosystem(-3)` are *not*
rejected — `range(size)` simply runs zero times and construction succeeds
with an empty grid. -/
theorem ecosystem_init_accepts_nonpositive_size :
    ecosystemInit 0 (1/10) (1/5) [] = .ok ⟨0, 1/10, []⟩ ∧
    ecosystemInit (-3) (1/10) (1/5) [] = .ok ⟨-3, 1/10, []⟩ := ⟨rfl, rfl⟩

/-- Claim C7 (amended).  Constructing a `Cell` with an unsupported terrain
label is a hard construction error, as claimed; but a non-positive grid
size is *not* validated: `Ecosystem.__init__` accepts it and produces a
world with an empty cell grid. -/
theorem construction_validation (label : String) (g : ℚ)
    (h1 : ¬ label.toLower = "rock") (h2 : ¬ label.toLower = "soil") :
    cellInit label g = .error "Unsupported terrain_type" ∧
    ∀ (size : Int), size ≤ 0 → ∀ (rate density : ℚ) (rng : List ℚ),
      ecosystemInit size rate density rng = .ok ⟨size, rate, []⟩ := by
  constructor
  · simp only [cellInit, if_neg h1, if_neg h2]
  · intro size hsize rate density rng
    have h0 : size.toNat = 0 := Int.toNat_eq_zero.mpr hsize
    simp only [ecosystemInit, h0, ecosystemRows]

theorem construction_validation_witness :
    cellInit "granite" 1 = .error "Unsupported terrain_type" ∧
    ecosystemInit (-2) (1/10) (1/5) [] = .ok ⟨-2, 1/10, []⟩ :=
  ⟨(construction_validation "granite" 1 (by with_unfolding_all decide)
      (by with_unfolding_all decide)).1,
   (construction_validation "granite" 1 (by with_unfolding_all decide)
      (by with_unfolding_all decide)).2 (-2) (by norm_num) (1/10) (1/5) []⟩

theorem nextStep_halted (s : SimState) (rng : Rng)
    (h : s.maxSteps ≤ s.currentStep) : nextStep s rng = some (s, false, rng) := by
  unfold nextStep
  rw [if_pos h]

theorem nextStep_running (s : SimState) (rng : Rng)
    (h : ¬ s.maxSteps ≤ s.currentStep) (t : SimState) (b : Bool) (rng' : Rng)
    (hr : nextStep s rng = some (t, b, rng')) :
    b = true ∧ t.currentStep = s.currentStep + 1 ∧ t.maxSteps = s.maxSteps := by
  unfold nextStep at hr
  rw [if_neg h] at hr
  cases hca : collectActions s.world s.pop rng with
  | none => simp only [hca] at hr; exact Option.noConfusion hr
  | some ar =>
    obtain ⟨acts, rng1⟩ := ar
    simp only [hca] at hr
    cases hp1 : execPhase .predator acts s.world [] [] with
    | none => simp only [hp1] at hr; exact Option.noConfusion hr
    | some r2 =>
      obtain ⟨w2, dead2, new2⟩ := r2
      simp only [hp1] at hr
      cases hp2 : execPhase .prey acts w2 dead2 new2 with
      | none => simp only [hp2] at hr; exact Option.noConfusion hr
      | some r3 =>
        obtain ⟨w3, dead3, new3⟩ := r3
        simp only [hp2, Option.some.injEq, Prod.mk.injEq] at hr
        obtain ⟨ht, hb, _⟩ := hr
        subst ht
        exact ⟨hb.symm, rfl, rfl⟩

theorem runLoop_spec (n : Nat) : ∀ (s : SimState) (rng : Rng) (r : SimState × Rng),
    runLoop n s rng = some r →
    (r.1.currentStep = if s.maxSteps ≤ s.currentStep then s.currentStep
      else min (s.currentStep + n) s.maxSteps) ∧ r.1.maxSteps = s.maxSteps := by
  induction n with
  | zero =>
    intro s rng r h
    unfold runLoop at h
    simp only [Option.some.injEq] at h
    subst h
    by_cases hh : s.maxSteps ≤ s.currentStep
    · simp [hh]
    · simp only [if_neg hh]
      exact ⟨by omega, by trivial⟩
  | succ n ih =>
    intro s rng r h
    unfold runLoop at h
    by_cases hh : s.maxSteps ≤ s.currentStep
    · rw [nextStep_halted s rng hh] at h
      simp only [Option.some.injEq] at h
      subst h
      simp [hh]
    · cases hns : nextStep s rng with
      | none => rw [hns] at h; exact Option.noConfusion h
      | some tr =>
        obtain ⟨t, b, rng'⟩ := tr
        obtain ⟨hb, hcs, hms⟩ := nextStep_running s rng hh t b rng' hns
        subst hb
        rw [hns] at h
        have hr := ih t rng' r h
        rw [hcs, hms] at hr
        refine ⟨?_, hr.2⟩
        rw [hr.1, if_neg hh]
        by_cases h2 : s.maxSteps ≤ s.currentStep + 1
        · rw [if_pos h2]; omega
        · rw [if_neg h2]; omega

/-- Claim C6, counterexample: with `max_steps = 1` and no step taken yet,
`run(0)` performs a full tick (the step counter reaches 1) instead of
calling `advance()` at most 0 times — `steps = steps or self.max_steps`
treats `0` as falsy and substitutes `max_steps`. -/
theorem run_zero_advances :
    c6sim.currentStep = 0 ∧
    (runPy (some 0) c6sim []).map (fun r => r.1.currentStep) = some 1 := by
  with_unfolding_all decide

/-- Claim C6 (amended: the `run(n)` bound holds for `n ≥ 1`; `run(0)`
behaves like `run(max_steps)` because Python's `or` treats 0 as falsy).
`next_step` returns `False` and changes nothing when
`current_step ≥ max_steps`, otherwise runs one tick and returns `True`;
the run loop calls `next_step` at most `n` times, stopping early only when
it reports the simulation halted — so the final step counter is
`min(current + n, max_steps)` for a running simulation. -/
theorem scheduler_halting (s : SimState) (rng : Rng) :
    (s.maxSteps ≤ s.currentStep → nextStep s rng = some (s, false, rng)) ∧
    (¬ s.maxSteps ≤ s.currentStep → ∀ t b rng', nextStep s rng = some (t, b, rng') →
      b = true ∧ t.currentStep = s.currentStep + 1) ∧
    (∀ n r, runLoop n s rng = some r →
      r.1.currentStep = if s.maxSteps ≤ s.currentStep then s.currentStep
        else min (s.currentStep + n) s.maxSteps) ∧
    (∀ n : Nat, ¬ n = 0 → runPy (some n) s rng = runLoop n s rng) := by
  refine ⟨fun h => nextStep_halted s rng h,
          fun h t b rng' hr => ⟨(nextStep_running s rng h t b rng' hr).1,
                                (nextStep_running s rng h t b rng' hr).2.1⟩,
          fun n r h => (runLoop_spec n s rng r h).1,
          fun n hn => ?_⟩
  unfold runPy
  simp only [if_neg hn]

theorem scheduler_halting_witness :
    nextStep c6halted [] = some (c6halted, false, []) ∧
    runPy (some 3) c6sim [] = runLoop 3 c6sim [] :=
  ⟨(scheduler_halting c6halted []).1 (by decide),
   (scheduler_halting c6sim []).2.2.2 3 (by decide)⟩

theorem addAnimalTo_full (w : World) (p : Coord) (c : Cell) (aid : Nat)
    (hc : getCell w.grid p = some c) (hfull : ¬ c.occupants.length < 2) :
    addAnimalTo w p aid = (w, false) := by
  simp only [addAnimalTo, hc]
  rw [if_neg hfull]

theorem addAnimalTo_success (w : World) (p : Coord) (c : Cell) (aid : Nat)
    (hc : getCell w.grid p = some c) (hlt : c.occupants.length < 2) :
    addAnimalTo w p aid =
      (updateAnimal (setCellW w p { c with occupants := c.occupants ++ [aid] }) aid
        (fun a => { a with position := some p }), true) := by
  simp only [addAnimalTo, hc]
  rw [if_pos hlt]

theorem removeAnimalFrom_mem (w : World) (p : Coord) (c : Cell) (aid : Nat)
    (hc : getCell w.grid p = some c) (hmem : aid ∈ c.occupants) :
    removeAnimalFrom w p aid =
      updateAnimal (setCellW w p { c with occupants := c.occupants.erase aid }) aid
        (fun a => { a with position := none }) := by
  simp only [removeAnimalFrom, hc]
  rw [if_pos hmem]

theorem destCoord_ne (w : World) (p q : Coord) (d : Dir)
    (h : destCoord w p d = some q) : q ≠ p := by
  unfold destCoord at h
  cases d <;> simp only [dirVec] at h <;>
    (split at h
     · simp only [Option.some.injEq] at h
       subst h
       intro hq
       rw [Prod.ext_iff] at hq
       simp only at hq
       omega
     · exact Option.noConfusion h)

/-- Claim C4.  `Animal.move` contract: every failure case returns `false`
with the state unchanged, and a successful move removes the agent from its
source cell, appends it to the destination cell, and deducts exactly
`move_cost` from its energy, exactly once. -/
theorem move_contract (w : World) (aid : Nat) (a : Animal) (d : Dir)
    (hget : getAnimal w aid = some a) :
    (a.alive = false → move w aid d = (w, false)) ∧
    (a.energy < a.moveCost → move w aid d = (w, false)) ∧
    (a.position = none → move w aid d = (w, false)) ∧
    (∀ p, a.position = some p → destCoord w p d = none → move w aid d = (w, false)) ∧
    (∀ p q nbc, a.position = some p → destCoord w p d = some q →
      getCell w.grid q = some nbc → nbc.terrain = .rock →
      move w aid d = (w, false)) ∧
    (∀ p q nbc, a.position = some p → destCoord w p d = some q →
      getCell w.grid q = some nbc → ¬ nbc.occupants.length < 2 →
      move w aid d = (w, false)) ∧
    (∀ p c q nbc, a.alive = true → a.moveCost ≤ a.energy → a.position = some p →
      getCell w.grid p = some c → destCoord w p d = some q →
      getCell w.grid q = some nbc → ¬ nbc.terrain = .rock →
      nbc.occupants.length < 2 → aid ∈ c.occupants →
      c.occupants.count aid ≤ 1 →
      (move w aid d).2 = true ∧
      getAnimal (move w aid d).1 aid
        = some { a with position := some q, energy := a.energy - a.moveCost } ∧
      getCell (move w aid d).1.grid p
        = some { c with occupants := c.occupants.erase aid } ∧
      aid ∉ c.occupants.erase aid ∧
      getCell (move w aid d).1.grid q
        = some { nbc with occupants := nbc.occupants ++ [aid] }) := by
  have hfail1 : a.alive = false → move w aid d = (w, false) := by
    intro h
    simp only [move, hget]
    rw [if_pos (Or.inl h)]
  have hfail2 : a.energy < a.moveCost → move w aid d = (w, false) := by
    intro h
    simp only [move, hget]
    rw [if_pos (Or.inr h)]
  have hfail3 : a.position = none → move w aid d = (w, false) := by
    intro h
    simp only [move, hget, h]
    split <;> rfl
  refine ⟨hfail1, hfail2, hfail3, ?_, ?_, ?_, ?_⟩
  · intro p hp hdest
    simp only [move, hget, hp]
    split
    · rfl
    · cases hcp : getCell w.grid p with
      | none => simp only [hcp]
      | some c0 => simp only [hcp, hdest]
  · intro p q nbc hp hdest hq hrock
    simp only [move, hget, hp]
    split
    · rfl
    · cases hcp : getCell w.grid p with
      | none => simp only [hcp]
      | some c0 =>
        simp only [hcp, hdest, hq]
        rw [if_pos (Or.inl hrock)]
  · intro p q nbc hp hdest hq hfull
    simp only [move, hget, hp]
    split
    · rfl
    · cases hcp : getCell w.grid p with
      | none => simp only [hcp]
      | some c0 =>
        simp only [hcp, hdest, hq]
        rw [if_pos (Or.inr hfull)]
  · intro p c q nbc halive hcost hp hcp hdest hq hrock hcap hmem hcount
    have hguard : ¬ (a.alive = false ∨ a.energy < a.moveCost) := by
      rintro (h | h)
      · rw [halive] at h; exact Bool.noConfusion h
      · exact absurd hcost (not_le.mpr h)
    have hqp : q ≠ p := destCoord_ne w p q d hdest
    have hmove : move w aid d =
        (updateAnimal ((addAnimalTo (removeAnimalFrom w p aid) q aid).1) aid
          (fun x => { x with energy := x.energy - a.moveCost }), true) := by
      simp only [move, hget, hp, hcp, hdest, hq]
      rw [if_neg hguard, if_neg (by rintro (h | h); exacts [hrock h, h hcap])]
    have hrm := removeAnimalFrom_mem w p c aid hcp hmem
    have hq1 : getCell (removeAnimalFrom w p aid).grid q = some nbc := by
      rw [hrm]
      exact (getCell_setCell_ne w.grid p q _ hqp).trans hq
    have hadd := addAnimalTo_success (removeAnimalFrom w p aid) q nbc aid hq1 hcap
    have hnotmem : aid ∉ c.occupants.erase aid := by
      intro hin
      have := List.count_pos_iff.mpr hin
      rw [List.count_erase_self] at this
      omega
    refine ⟨by rw [hmove], ?_, ?_, hnotmem, ?_⟩
    · rw [hmove]
      simp only [hadd]
      simp only [hrm]
      simp only [getAnimal_updateAnimal, getAnimal_setCellW]
      rw [hget]
      rfl
    · rw [hmove]
      simp only [hadd]
      simp only [updateAnimal_grid, setCellW_grid]
      rw [getCell_setCell_ne _ q p _ (Ne.symm hqp)]
      simp only [hrm]
      simp only [updateAnimal_grid, setCellW_grid]
      exact getCell_setCell_self w.grid p _ c hcp
    · rw [hmove]
      simp only [hadd]
      simp only [updateAnimal_grid, setCellW_grid]
      exact getCell_setCell_self _ q _ nbc hq1

theorem move_contract_witness :
    ((move mvW 0 .RIGHT).2 = true ∧
     getAnimal (move mvW 0 .RIGHT).1 0
       = some { mvA with position := some (0, 1), energy := mvA.energy - mvA.moveCost } ∧
     getCell (move mvW 0 .RIGHT).1.grid (0, 0)
       = some { (⟨.soil, 0, [0]⟩ : Cell) with occupants := [0].erase 0 } ∧
     0 ∉ [0].erase 0 ∧
     getCell (move mvW 0 .RIGHT).1.grid (0, 1)
       = some { (⟨.soil, 0, []⟩ : Cell) with occupants := [] ++ [0] }) ∧
    move { mvW with heap := [(0, { mvA with energy := 1 })] } 0 .RIGHT
      = ({ mvW with heap := [(0, { mvA with energy := 1 })] }, false) :=
  ⟨(move_contract mvW 0 mvA .RIGHT rfl).2.2.2.2.2.2 (0, 0) ⟨.soil, 0, [0]⟩ (0, 1)
      ⟨.soil, 0, []⟩ rfl (by with_unfolding_all decide) rfl rfl
      (by with_unfolding_all decide) rfl (by decide) (by decide) (by decide) (by decide),
   (move_contract { mvW with heap := [(0, { mvA with energy := 1 })] } 0
      { mvA with energy := 1 } .RIGHT rfl).2.1 (by with_unfolding_all decide)⟩

theorem lookup_append_left (l1 l2 : List (Nat × Animal)) (k : Nat) (v : Animal)
    (h : l1.lookup k = some v) : (l1 ++ l2).lookup k = some v := by
  induction l1 with
  | nil => exact Option.noConfusion h
  | cons e rest ih =>
    obtain ⟨k0, v0⟩ := e
    by_cases hk : k = k0
    · subst hk
      simp [List.lookup] at h ⊢
      exact h
    · have hb : (k == k0) = false := by simpa [beq_eq_false_iff_ne] using hk
      simp only [List.lookup, hb] at h
      simp only [List.cons_append, List.lookup, hb]
      exact ih h

theorem lookup_append_right (l1 l2 : List (Nat × Animal)) (k : Nat)
    (h : l1.lookup k = none) : (l1 ++ l2).lookup k = l2.lookup k := by
  induction l1 with
  | nil => rfl
  | cons e rest ih =>
    obtain ⟨k0, v0⟩ := e
    by_cases hk : k = k0
    · subst hk
      simp [List.lookup] at h
    · have hb : (k == k0) = false := by simpa [beq_eq_false_iff_ne] using hk
      simp only [List.lookup, hb] at h
      simp only [List.cons_append, List.lookup, hb]
      exact ih h

/-- Claim C5.  `Animal.reproduce` contract: failure cases return `false`
with the state unchanged; on success the offspring is a fresh animal of the
parent's species admitted into the parent's own cell, its energy is half of
the parent's pre-deduction energy, and the parent pays exactly
`reproduction_cost`. -/
theorem reproduce_contract (w : World) (aid : Nat) (a : Animal)
    (hget : getAnimal w aid = some a) :
    (a.alive = false → reproduce w aid = (w, false)) ∧
    (a.energy < a.reproductionThreshold → reproduce w aid = (w, false)) ∧
    (a.position = none → reproduce w aid = (w, false)) ∧
    (∀ p c, a.position = some p → getCell w.grid p = some c →
      ¬ c.occupants.length < 2 → reproduce w aid = (w, false)) ∧
    (∀ p c, a.alive = true → a.reproductionThreshold ≤ a.energy →
      a.position = some p → getCell w.grid p = some c →
      c.occupants.length < 2 → getAnimal w w.nextId = none →
      (reproduce w aid).2 = true ∧
      getAnimal (reproduce w aid).1 w.nextId
        = some { speciesNew a.species (some p) with energy := a.energy / 2 } ∧
      getAnimal (reproduce w aid).1 aid
        = some { a with energy := a.energy - a.reproductionCost } ∧
      getCell (reproduce w aid).1.grid p
        = some { c with occupants := c.occupants ++ [w.nextId] } ∧
      (reproduce w aid).1.nextId = w.nextId + 1) := by
  have hfail1 : a.alive = false → reproduce w aid = (w, false) := by
    intro h
    simp only [reproduce, hget]
    rw [if_pos (Or.inl h)]
  have hfail2 : a.energy < a.reproductionThreshold → reproduce w aid = (w, false) := by
    intro h
    simp only [reproduce, hget]
    rw [if_pos (Or.inr h)]
  have hfail3 : a.position = none → reproduce w aid = (w, false) := by
    intro h
    simp only [reproduce, hget, h]
    split <;> rfl
  refine ⟨hfail1, hfail2, hfail3, ?_, ?_⟩
  · intro p c hp hc hfull
    simp only [reproduce, hget, hp, hc]
    rw [if_pos hfull]
    split <;> rfl
  · intro p c halive hth hp hc hlt hfresh
    have hguard : ¬ (a.alive = false ∨ a.energy < a.reproductionThreshold) := by
      rintro (h | h)
      · rw [halive] at h; exact Bool.noConfusion h
      · exact absurd hth (not_le.mpr h)
    have hne : aid ≠ w.nextId := by
      intro he
      rw [he, hfresh] at hget
      exact Option.noConfusion hget
    -- the heap after appending the offspring object
    set off : Animal := { speciesNew a.species (some p) with energy := a.energy / 2 } with hoff
    set w1 : World := { w with heap := w.heap ++ [(w.nextId, off)], nextId := w.nextId + 1 } with hw1
    set w2 : World := updateAnimal w1 aid
      (fun x => { x with energy := x.energy - a.reproductionCost }) with hw2
    have hred : reproduce w aid = addAnimalTo w2 p w.nextId := by
      simp only [reproduce, hget, hp, hc]
      rw [if_neg hguard, if_neg (by exact fun h => h hlt)]
    have hcell2 : getCell w2.grid p = some c := by
      rw [hw2, updateAnimal_grid, hw1]
      exact hc
    have hadd := addAnimalTo_success w2 p c w.nextId hcell2 hlt
    have hg1off : getAnimal w1 w.nextId = some off := by
      rw [hw1]
      show (w.heap ++ [(w.nextId, off)]).lookup w.nextId = some off
      rw [lookup_append_right w.heap _ w.nextId hfresh]
      simp [List.lookup]
    have hg2off : getAnimal w2 w.nextId = some off := by
      rw [hw2, getAnimal_updateAnimal_ne w1 aid w.nextId _ (Ne.symm hne), hg1off]
    have hg1par : getAnimal w1 aid = some a := by
      rw [hw1]
      show (w.heap ++ [(w.nextId, off)]).lookup aid = some a
      exact lookup_append_left w.heap _ aid a hget
    have hg2par : getAnimal w2 aid
        = some { a with energy := a.energy - a.reproductionCost } := by
      rw [hw2, getAnimal_updateAnimal, hg1par]
      rfl
    refine ⟨?_, ?_, ?_, ?_, ?_⟩
    · rw [hred, hadd]
    · rw [hred, hadd]
      show getAnimal (updateAnimal (setCellW w2 p _) w.nextId _) w.nextId = _
      rw [getAnimal_updateAnimal, getAnimal_setCellW, hg2off]
      rw [hoff]
      cases a.species <;> rfl
    · rw [hred, hadd]
      show getAnimal (updateAnimal (setCellW w2 p _) w.nextId _) aid = _
      rw [getAnimal_updateAnimal_ne _ w.nextId aid _ hne, getAnimal_setCellW, hg2par]
    · rw [hred, hadd]
      show getCell (updateAnimal (setCellW w2 p _) w.nextId _).grid p = _
      rw [updateAnimal_grid, setCellW_grid]
      exact getCell_setCell_self w2.grid p _ c hcell2
    · rw [hred, hadd]
      show (updateAnimal (setCellW w2 p _) w.nextId _).nextId = _
      rw [hw2, hw1]
      rfl

theorem reproduce_contract_witness :
    (reproduce rpW 0).2 = true ∧
    getAnimal (reproduce rpW 0).1 rpW.nextId
      = some { speciesNew rpA.species (some (0, 0)) with energy := rpA.energy / 2 } ∧
    getAnimal (reproduce rpW 0).1 0
      = some { rpA with energy := rpA.energy - rpA.reproductionCost } ∧
    getCell (reproduce rpW 0).1.grid (0, 0)
      = some { (⟨.soil, 0, [0]⟩ : Cell) with occupants := [0] ++ [rpW.nextId] } ∧
    (reproduce rpW 0).1.nextId = rpW.nextId + 1 :=
  (reproduce_contract rpW 0 rpA rfl).2.2.2.2 (0, 0) ⟨.soil, 0, [0]⟩
    (by with_unfolding_all decide) (by with_unfolding_all decide) rfl rfl
    (by decide) rfl

/-! ### Preservation of the occupancy bound -/

theorem OccInv_getCell {g : List (List Cell)} {p : Coord} {c : Cell}
    (hg : OccInv g) (h : getCell g p = some c) : c.occupants.length ≤ 2 := by
  unfold getCell at h
  cases hr : g[p.1]? with
  | none => rw [hr] at h; exact Option.noConfusion h
  | some row =>
    rw [hr] at h
    simp only [Option.some_bind] at h
    exact hg row (List.getElem?_mem hr) c (List.getElem?_mem h)

theorem OccInv_setCell {g : List (List Cell)} (p : Coord) {c : Cell}
    (hg : OccInv g) (hc : c.occupants.length ≤ 2) : OccInv (setCell g p c) := by
  unfold setCell
  cases hr : g[p.1]? with
  | none => exact hg
  | some row =>
    intro row' hrow' c' hc'
    rcases List.mem_or_eq_of_mem_set hrow' with h | h
    · exact hg row' h c' hc'
    · subst h
      rcases List.mem_or_eq_of_mem_set hc' with h2 | h2
      · exact hg row (List.getElem?_mem hr) c' h2
      · subst h2
        exact hc

theorem addAnimalTo_inv {w : World} (p : Coord) (aid : Nat)
    (h : OccInv w.grid) : OccInv (addAnimalTo w p aid).1.grid := by
  unfold addAnimalTo
  split
  · exact h
  · split
    · rename_i hlt
      rw [updateAnimal_grid, setCellW_grid]
      refine OccInv_setCell p h ?_
      simp only [List.length_append, List.length_singleton]
      omega
    · exact h

theorem removeAnimalFrom_inv {w : World} (p : Coord) (aid : Nat)
    (h : OccInv w.grid) : OccInv (removeAnimalFrom w p aid).grid := by
  unfold removeAnimalFrom
  split
  · exact h
  · rename_i c hc
    split
    · rw [updateAnimal_grid, setCellW_grid]
      refine OccInv_setCell p h ?_
      calc (c.occupants.erase aid).length ≤ c.occupants.length :=
            List.length_erase_le aid c.occupants
        _ ≤ 2 := OccInv_getCell h hc
    · exact h

theorem foldl_updateAnimal_grid (l : List Nat) (w : World)
    (f : Animal → Animal) :
    (l.foldl (fun acc oid => updateAnimal acc oid f) w).grid = w.grid := by
  induction l generalizing w with
  | nil => rfl
  | cons x rest ih => exact (ih (updateAnimal w x f)).trans rfl

theorem clearOccupantsAt_inv {w : World} (p : Coord)
    (h : OccInv w.grid) : OccInv (clearOccupantsAt w p).grid := by
  unfold clearOccupantsAt
  split
  · exact h
  · rw [setCellW_grid, foldl_updateAnimal_grid]
    exact OccInv_setCell p h (by simp)

theorem move_inv {w : World} (aid : Nat) (d : Dir)
    (h : OccInv w.grid) : OccInv (move w aid d).1.grid := by
  unfold move
  repeat' split
  all_goals try exact h
  rw [updateAnimal_grid]
  exact addAnimalTo_inv _ aid (removeAnimalFrom_inv _ aid h)

theorem consumeGrass_occupants (c : Cell) (amount : ℚ) :
    (c.consumeGrass amount).2.occupants = c.occupants := by
  unfold Cell.consumeGrass
  split <;> rfl

theorem preyEat_inv {w : World} (aid : Nat)
    (h : OccInv w.grid) : OccInv (preyEat w aid).1.grid := by
  unfold preyEat
  repeat' split
  all_goals try exact h
  rename_i a hpos p c hc hg
  rw [updateAnimal_grid, setCellW_grid]
  refine OccInv_setCell _ h ?_
  rw [consumeGrass_occupants]
  exact OccInv_getCell h hc

theorem predatorEat_inv {w : World} (pid qid : Nat) {r : World × ℚ}
    (hr : predatorEat w pid qid = some r)
    (h : OccInv w.grid) : OccInv r.1.grid := by
  unfold predatorEat at hr
  cases hga : getAnimal w pid with
  | none => simp only [hga] at hr; exact Option.noConfusion hr
  | some a =>
    cases hgq : getAnimal w qid with
    | none => simp only [hga, hgq] at hr; exact Option.noConfusion hr
    | some q =>
      simp only [hga, hgq] at hr
      by_cases h1 : a.alive = false ∨ q.alive = false ∨ a.position ≠ q.position
      · rw [if_pos h1] at hr
        simp only [Option.some.injEq] at hr
        subst hr
        exact h
      · rw [if_neg h1] at hr
        by_cases h2 : a.energy - a.attackCost ≤ 0
        · rw [if_pos h2] at hr
          simp only [Option.some.injEq] at hr
          subst hr
          simpa only [updateAnimal_grid] using h
        · rw [if_neg h2] at hr
          by_cases h3 : q.energy - a.attackDamage ≤ 0
          · rw [if_pos h3] at hr
            cases hpos : a.position with
            | none => rw [hpos] at hr; exact Option.noConfusion hr
            | some p =>
              rw [hpos] at hr
              simp only [Option.some.injEq] at hr
              subst hr
              simp only [updateAnimal_grid]
              refine removeAnimalFrom_inv p qid ?_
              simpa only [updateAnimal_grid] using h
          · rw [if_neg h3] at hr
            simp only [Option.some.injEq] at hr
            subst hr
            simpa only [updateAnimal_grid] using h

theorem reproduce_inv {w : World} (aid : Nat)
    (h : OccInv w.grid) : OccInv (reproduce w aid).1.grid := by
  unfold reproduce
  repeat' split
  all_goals try exact h
  exact addAnimalTo_inv _ _ (h : OccInv w.grid)

theorem transform_inv {w : World} (aid : Nat) (act : Act)
    {r : World × Bool × List Nat} (hr : transform w aid act = some r)
    (h : OccInv w.grid) : OccInv r.1.grid := by
  cases act with
  | move d =>
    simp only [transform, Option.some.injEq] at hr
    subst hr
    exact move_inv aid d h
  | eat targ =>
    unfold transform at hr
    cases hga : getAnimal w aid with
    | none => simp only [hga] at hr; exact Option.noConfusion hr
    | some a =>
      simp only [hga] at hr
      cases targ with
      | some t =>
        simp only [] at hr
        by_cases hsp : a.species = .predator ∧ speciesIsB w t .prey = true
        · rw [if_pos hsp] at hr
          cases hpe : predatorEat w aid t with
          | none => rw [hpe] at hr; exact Option.noConfusion hr
          | some pr =>
            rw [hpe] at hr
            simp only [Option.some.injEq] at hr
            subst hr
            exact predatorEat_inv aid t hpe h
        · rw [if_neg hsp] at hr
          cases ha : a.species with
          | prey =>
            rw [ha] at hr
            simp only [Option.some.injEq] at hr
            subst hr
            exact preyEat_inv aid h
          | predator => rw [ha] at hr; exact Option.noConfusion hr
      | none =>
        simp only [] at hr
        cases ha : a.species with
        | prey =>
          simp only [ha, Option.some.injEq] at hr
          subst hr
          exact preyEat_inv aid h
        | predator =>
          simp only [ha] at hr
          exact Option.noConfusion hr
  | reproduce =>
    have hrep : OccInv (reproduce w aid).1.grid := reproduce_inv aid h
    simp only [transform] at hr
    repeat' split at hr
    all_goals first
      | exact Option.noConfusion hr
      | (simp only [Option.some.injEq] at hr; subst hr; exact hrep)

theorem execPhase_inv (sp : Species) (acts : List (Nat × Act)) :
    ∀ (w : World) (dead new_ : List Nat) (r : World × List Nat × List Nat),
    execPhase sp acts w dead new_ = some r → OccInv w.grid → OccInv r.1.grid := by
  induction acts with
  | nil =>
    intro w dead new_ r hr h
    simp only [execPhase, Option.some.injEq] at hr
    subst hr
    exact h
  | cons e rest ih =>
    intro w dead new_ r hr h
    obtain ⟨aid, act⟩ := e
    unfold execPhase at hr
    split at hr
    · cases ht : transform w aid act with
      | none => rw [ht] at hr; exact Option.noConfusion hr
      | some tr =>
        obtain ⟨w', alive, off⟩ := tr
        rw [ht] at hr
        exact ih w' _ _ r hr (transform_inv aid act ht h)
    · exact ih w dead new_ r hr h

theorem regenAll_inv {w : World} (rate : ℚ)
    (h : OccInv w.grid) : OccInv (regenAll w rate).grid := by
  intro row hrow c hc
  unfold regenAll at hrow
  simp only [List.mem_map] at hrow
  obtain ⟨row0, hrow0, hmap⟩ := hrow
  subst hmap
  simp only [List.mem_map] at hc
  obtain ⟨c0, hc0, hcm⟩ := hc
  subst hcm
  have := h row0 hrow0 c0 hc0
  split
  · unfold Cell.regenerateGrass
    split <;> simpa
  · simpa

theorem nextStep_inv {s : SimState} {rng : Rng} {r : SimState × Bool × Rng}
    (hr : nextStep s rng = some r)
    (h : OccInv s.world.grid) : OccInv r.1.world.grid := by
  unfold nextStep at hr
  split at hr
  · simp only [Option.some.injEq] at hr
    subst hr
    exact h
  · cases hca : collectActions s.world s.pop rng with
    | none => rw [hca] at hr; exact Option.noConfusion hr
    | some ar =>
      obtain ⟨acts, rng1⟩ := ar
      simp only [hca] at hr
      cases hp1 : execPhase .predator acts s.world [] [] with
      | none => simp only [hp1] at hr; exact Option.noConfusion hr
      | some r2 =>
        obtain ⟨w2, dead2, new2⟩ := r2
        simp only [hp1] at hr
        cases hp2 : execPhase .prey acts w2 dead2 new2 with
        | none => simp only [hp2] at hr; exact Option.noConfusion hr
        | some r3 =>
          obtain ⟨w3, dead3, new3⟩ := r3
          simp only [hp2, Option.some.injEq] at hr
          subst hr
          exact regenAll_inv _ (execPhase_inv .prey acts w2 dead2 new2 _ hp2
            (execPhase_inv .predator acts s.world [] [] _ hp1 h))

theorem consumeAt_inv {w : World} (p : Coord) (amount : ℚ)
    (h : OccInv w.grid) : OccInv (consumeAt w p amount).grid := by
  unfold consumeAt
  split
  · exact h
  · rename_i c hc
    rw [setCellW_grid]
    refine OccInv_setCell _ h ?_
    rw [consumeGrass_occupants]
    exact OccInv_getCell h hc

theorem applyOp_inv {s : SimState} {op : Op} {t : SimState}
    (hr : applyOp s op = some t)
    (h : OccInv s.world.grid) : OccInv t.world.grid := by
  cases op with
  | addOp p aid =>
    simp only [applyOp, Option.some.injEq] at hr
    subst hr
    exact addAnimalTo_inv p aid h
  | removeOp p aid =>
    simp only [applyOp, Option.some.injEq] at hr
    subst hr
    exact removeAnimalFrom_inv p aid h
  | clearOp p =>
    simp only [applyOp, Option.some.injEq] at hr
    subst hr
    exact clearOccupantsAt_inv p h
  | moveOp aid d =>
    simp only [applyOp, Option.some.injEq] at hr
    subst hr
    exact move_inv aid d h
  | preyEatOp aid =>
    simp only [applyOp, Option.some.injEq] at hr
    subst hr
    exact preyEat_inv aid h
  | predEatOp pid qid =>
    simp only [applyOp] at hr
    cases hpe : predatorEat s.world pid qid with
    | none => simp only [hpe] at hr; exact Option.noConfusion hr
    | some pr =>
      simp only [hpe, Option.some.injEq] at hr
      subst hr
      exact predatorEat_inv pid qid hpe h
  | reproduceOp aid =>
    simp only [applyOp, Option.some.injEq] at hr
    subst hr
    exact reproduce_inv aid h
  | consumeOp p amount =>
    simp only [applyOp, Option.some.injEq] at hr
    subst hr
    exact consumeAt_inv p amount h
  | regenOp rate =>
    simp only [applyOp, Option.some.injEq] at hr
    subst hr
    exact regenAll_inv rate h
  | tickOp rng =>
    simp only [applyOp] at hr
    cases hns : nextStep s rng with
    | none => simp only [hns] at hr; exact Option.noConfusion hr
    | some nr =>
      simp only [hns, Option.some.injEq] at hr
      subst hr
      exact nextStep_inv hns h

theorem applyOps_inv : ∀ (ops : List Op) (s s' : SimState),
    applyOps s ops = some s' → OccInv s.world.grid → OccInv s'.world.grid := by
  intro ops
  induction ops with
  | nil =>
    intro s s' hr h
    simp only [applyOps, Option.some.injEq] at hr
    subst hr
    exact h
  | cons op rest ih =>
    intro s s' hr h
    unfold applyOps at hr
    cases hop : applyOp s op with
    | none => simp only [hop] at hr; exact Option.noConfusion hr
    | some t =>
      simp only [hop] at hr
      exact ih t s' hr (applyOp_inv hop h)

/-- Claim C9.  The occupancy bound `occupant_count() ≤ 2` is preserved by
every sequence of core operations (add, remove, clear, move, both eats,
reproduce, grass consumption and regeneration, whole scheduler ticks), and
`add_animal` on a cell that already holds two occupants returns `false`
leaving the whole state — occupant list and every position reference —
unchanged. -/
theorem occupancy_bound (s : SimState) (ops : List Op) (s' : SimState)
    (hinv : OccInv s.world.grid) (hrun : applyOps s ops = some s') :
    OccInv s'.world.grid ∧
    (∀ (w : World) (p : Coord) (c : Cell) (aid : Nat),
      getCell w.grid p = some c → ¬ c.occupants.length < 2 →
      addAnimalTo w p aid = (w, false)) :=
  ⟨applyOps_inv ops s s' hrun hinv,
   fun w p c aid hc hfull => addAnimalTo_full w p c aid hc hfull⟩

theorem occupancy_bound_witness :
    OccInv c9end.world.grid ∧
    addAnimalTo c9fullW (0, 0) 9 = (c9fullW, false) :=
  ⟨(occupancy_bound c9sim [.addOp (0, 0) 0, .tickOp []] c9end (by decide)
      (by with_unfolding_all decide)).1,
   (occupancy_bound c9sim [] c9sim (by decide) rfl).2 c9fullW (0, 0)
      ⟨.soil, 0, [1, 2]⟩ 9 rfl (by decide)⟩

/-! ### The prey threat rule (perception lookup and escape scan) -/

theorem lookup_append_none {α β : Type} [BEq α] (l1 l2 : List (α × β)) (k : α)
    (h : l1.lookup k = none) : (l1 ++ l2).lookup k = l2.lookup k := by
  induction l1 with
  | nil => rfl
  | cons e rest ih =>
    obtain ⟨k0, v0⟩ := e
    cases hb : k == k0 with
    | true =>
      simp only [List.lookup, hb] at h
      exact Option.noConfusion h
    | false =>
      simp only [List.lookup, hb] at h
      simp only [List.cons_append, List.lookup, hb]
      exact ih h

theorem neighborEntry_lookup_none (w : World) (p : Coord) (dr dc : Int)
    (k : Int × Int) (hne : (k == (dr, dc)) = false) :
    (neighborEntry w p dr dc).lookup k = none := by
  simp only [neighborEntry]
  split
  · split
    · simp only [List.lookup, hne]
    · rfl
  · rfl

theorem neighborEntry_eq (w : World) (p q : Coord) (d : Dir) (cq : Cell)
    (dr dc : Int) (hvec : dirVec d = (dr, dc))
    (hdest : destCoord w p d = some q) (hq : getCell w.grid q = some cq) :
    neighborEntry w p dr dc
      = [((dr, dc),
          ⟨q, cq.terrain, if cq.terrain = .soil then cq.grass else 0,
           cq.occupants⟩)] := by
  simp only [destCoord, hvec] at hdest
  simp only [neighborEntry]
  split at hdest
  · rename_i hb
    simp only [Option.some.injEq] at hdest
    subst hdest
    rw [if_pos hb, hq]
  · exact Option.noConfusion hdest

/-- Looking up an axis direction in the neighbors list built by `see` finds
exactly the destination cell's entry. -/
theorem neighbors_lookup (w : World) (p q : Coord) (d : Dir) (cq : Cell)
    (hdest : destCoord w p d = some q) (hq : getCell w.grid q = some cq) :
    ((seeOffsets.map (fun v => neighborEntry w p v.1 v.2)).flatten).lookup (dirVec d)
      = some ⟨q, cq.terrain, if cq.terrain = .soil then cq.grass else 0,
              cq.occupants⟩ := by
  cases d with
  | UP =>
    have hhit := neighborEntry_eq w p q .UP cq (-1) 0 rfl hdest hq
    simp only [seeOffsets, List.map_cons, List.map_nil, List.flatten_cons,
      List.flatten_nil, List.append_nil, dirVec]
    rw [lookup_append_none _ _ _ (neighborEntry_lookup_none w p (-1) (-1) _ (by decide)),
        hhit]
    simp [List.lookup]
  | DOWN =>
    have hhit := neighborEntry_eq w p q .DOWN cq 1 0 rfl hdest hq
    simp only [seeOffsets, List.map_cons, List.map_nil, List.flatten_cons,
      List.flatten_nil, List.append_nil, dirVec]
    rw [lookup_append_none _ _ _ (neighborEntry_lookup_none w p (-1) (-1) _ (by decide)),
        lookup_append_none _ _ _ (neighborEntry_lookup_none w p (-1) 0 _ (by decide)),
        lookup_append_none _ _ _ (neighborEntry_lookup_none w p (-1) 1 _ (by decide)),
        lookup_append_none _ _ _ (neighborEntry_lookup_none w p 0 (-1) _ (by decide)),
        lookup_append_none _ _ _ (neighborEntry_lookup_none w p 0 0 _ (by decide)),
        lookup_append_none _ _ _ (neighborEntry_lookup_none w p 0 1 _ (by decide)),
        lookup_append_none _ _ _ (neighborEntry_lookup_none w p 1 (-1) _ (by decide)),
        hhit]
    simp [List.lookup]
  | LEFT =>
    have hhit := neighborEntry_eq w p q .LEFT cq 0 (-1) rfl hdest hq
    simp only [seeOffsets, List.map_cons, List.map_nil, List.flatten_cons,
      List.flatten_nil, List.append_nil, dirVec]
    rw [lookup_append_none _ _ _ (neighborEntry_lookup_none w p (-1) (-1) _ (by decide)),
        lookup_append_none _ _ _ (neighborEntry_lookup_none w p (-1) 0 _ (by decide)),
        lookup_append_none _ _ _ (neighborEntry_lookup_none w p (-1) 1 _ (by decide)),
        hhit]
    simp [List.lookup]
  | RIGHT =>
    have hhit := neighborEntry_eq w p q .RIGHT cq 0 1 rfl hdest hq
    simp only [seeOffsets, List.map_cons, List.map_nil, List.flatten_cons,
      List.flatten_nil, List.append_nil, dirVec]
    rw [lookup_append_none _ _ _ (neighborEntry_lookup_none w p (-1) (-1) _ (by decide)),
        lookup_append_none _ _ _ (neighborEntry_lookup_none w p (-1) 0 _ (by decide)),
        lookup_append_none _ _ _ (neighborEntry_lookup_none w p (-1) 1 _ (by decide)),
        lookup_append_none _ _ _ (neighborEntry_lookup_none w p 0 (-1) _ (by decide)),
        lookup_append_none _ _ _ (neighborEntry_lookup_none w p 0 0 _ (by decide)),
        hhit]
    simp [List.lookup]

theorem safeDirs_mem (w : World) (per : Perception) (d : Dir) (q : Coord)
    (cq : Cell)
    (hlk : per.neighbors.lookup (dirVec d)
      = some ⟨q, cq.terrain, if cq.terrain = .soil then cq.grass else 0,
              cq.occupants⟩)
    (hsoil : cq.terrain = .soil) (hq : getCell w.grid q = some cq)
    (hcap : cq.occupants.length < 2) :
    d ∈ safeDirs w per := by
  unfold safeDirs
  apply List.mem_map.mpr
  refine ⟨(d, dirVec d), ?_, rfl⟩
  apply List.mem_filter.mpr
  constructor
  · cases d <;> decide
  · simp only [hlk, canAddB, hq, hsoil]
    simpa using hcap

theorem escapeScan_move (w : World) (per : Perception) (rng : Rng) :
    ∀ occs : List Nat, (∃ oid ∈ occs, aliveB w oid = true) →
    safeDirs w per ≠ [] →
    ∃ d rng', escapeScan w per occs rng = some (.move d, rng') := by
  intro occs
  induction occs with
  | nil =>
    rintro ⟨oid, h, -⟩ -
    exact absurd h (List.not_mem_nil oid)
  | cons o rest ih =>
    rintro ⟨oid, hmem, halive⟩ hsd
    by_cases ho : aliveB w o = true
    · refine ⟨(randChoice (safeDirs w per) rng).1,
              (randChoice (safeDirs w per) rng).2, ?_⟩
      simp only [escapeScan]
      rw [if_pos ho, if_neg hsd]
    · have hrest : oid ∈ rest := by
        rcases List.mem_cons.mp hmem with h | h
        · subst h; exact absurd halive ho
        · exact h
      obtain ⟨d, rng', hrec⟩ := ih ⟨oid, hrest, halive⟩ hsd
      refine ⟨d, rng', ?_⟩
      simp only [escapeScan]
      rw [if_neg ho]
      exact hrec

theorem see_eq (w : World) (aid : Nat) (a : Animal) (p : Coord) (c : Cell)
    (hget : getAnimal w aid = some a) (halive : a.alive = true)
    (hp : a.position = some p) (hc : getCell w.grid p = some c) :
    see w aid = some ⟨p,
      (seeOffsets.map (fun v => neighborEntry w p v.1 v.2)).flatten,
      a.energy⟩ := by
  simp only [see, hget, hp, hc]
  rw [if_neg (by rw [halive]; exact Bool.noConfusion)]

/-- Claim C10.  For a living, placed prey the occupant list of its own cell
contains the prey itself (a living occupant), so the threat rule of
`Prey.action` always fires: whenever at least one axis-aligned neighboring
cell is soil with open capacity, the decision is a Move — never Eat or
Reproduce — regardless of whether any predator is present. -/
theorem prey_escape_rule_self_trigger (w : World) (aid : Nat) (a : Animal)
    (p q : Coord) (c cq : Cell) (d : Dir) (rng : Rng)
    (hget : getAnimal w aid = some a) (hspecies : a.species = .prey)
    (halive : a.alive = true) (hp : a.position = some p)
    (hc : getCell w.grid p = some c) (hmem : aid ∈ c.occupants)
    (hdest : destCoord w p d = some q) (hq : getCell w.grid q = some cq)
    (hsoil : cq.terrain = .soil) (hcap : cq.occupants.length < 2) :
    ∀ per, see w aid = some per →
    ∃ d' rng', preyAction w a per rng = some (.move d', rng') := by
  intro per hper
  rw [see_eq w aid a p c hget halive hp hc] at hper
  simp only [Option.some.injEq] at hper
  subst hper
  have hlk := neighbors_lookup w p q d cq hdest hq
  have hdmem : d ∈ safeDirs w
      ⟨p, (seeOffsets.map (fun v => neighborEntry w p v.1 v.2)).flatten,
        a.energy⟩ :=
    safeDirs_mem w _ d q cq hlk hsoil hq hcap
  have hsd := List.ne_nil_of_mem hdmem
  have halB : aliveB w aid = true := by simp [aliveB, hget, halive]
  obtain ⟨d', rng', hesc⟩ :=
    escapeScan_move w _ rng c.occupants ⟨aid, hmem, halB⟩ hsd
  refine ⟨d', rng', ?_⟩
  simp only [preyAction, hc, hesc]

theorem prey_escape_rule_self_trigger_witness :
    ∃ d' rng', preyAction mvW mvA c10per [] = some (.move d', rng') :=
  prey_escape_rule_self_trigger mvW 0 mvA (0, 0) (0, 1) ⟨.soil, 0, [0]⟩
    ⟨.soil, 0, []⟩ .RIGHT [] rfl rfl rfl rfl rfl (by decide)
    (by with_unfolding_all decide) rfl rfl (by decide) c10per
    (by with_unfolding_all decide)

end AIvolution
